import Mathlib

/-!
Verification development for the caaspay-api-go HTTP-to-RPC gateway.

The Go source is shallowly embedded: pure fragments become Lean functions,
the stateful pool becomes explicit state passing plus a small-step relation
for the phase of `GetClient` that waits on a saturated pool.  Go maps with
`int` values are modelled as total functions with default 0 (reading a
missing key of a Go map yields the zero value), Go JSON documents as an
inductive value type, and `string → interface\x7b\x7d` maps as association
lists.  Time is modelled in integer nanoseconds (Go `time.Time` /
`time.Duration` resolution); `time.Time.Unix()` is division by 10^9.
-/

namespace Gateway

/-- Decoded JSON value, the embedding of Go `interface\x7b\x7d` values that
appear in broker messages (`encoding/json` decodes objects to
`map[string]interface\x7b\x7d`, which we model as association lists). -/
inductive JVal where
  | str (s : String)
  | num (n : Int)
  | boolean (b : Bool)
  | jnull
  | obj (fields : List (String × JVal))

/-- Association-list form of a Go `map[string]interface\x7b\x7d`. -/
abbrev JMap := List (String × JVal)

/-! ### RPC envelope (src/internal/rpc/rpc_message.go) -/

/-- Embedding of the Go struct `RPCMessage`.  The four free-form maps are
`JMap`s; `deadline` is the `int64` Unix-seconds field. -/
structure RPCMessage where
  rpc : String
  messageId : String
  transportId : String
  who : String
  deadline : Int
  args : JMap
  response : JMap
  stash : JMap
  trace : JMap

/-- Embedding of `NewRPCMessage` (rpc_message.go lines 25-36).  `nowNs` is
the current wall clock in nanoseconds, `timeoutNs` the timeout duration in
nanoseconds, and `freshId` the UUID produced by `uuid.New().String()`.
`time.Now().Add(timeout).Unix()` truncates the deadline to whole seconds,
hence the division by 10^9. -/
def NewRPCMessage (rpc who : String) (args : JMap) (nowNs timeoutNs : Nat)
    (freshId : String) : RPCMessage :=
  { rpc := rpc
    messageId := freshId
    transportId := ""
    who := who
    deadline := ((nowNs + timeoutNs) / 1000000000 : Nat)
    args := args
    response := []
    stash := []
    trace := [] }

/-- Embedding of the method `ToJSON` (rpc_message.go lines 39-45): the JSON
document `json.Marshal` produces for the struct.  Fields are emitted in
declaration order; `transport_id`, `response`, `stash` and `trace` carry
the `omitempty` tag, so an empty string or an empty map is omitted. -/
def RPCMessage.ToJSON (m : RPCMessage) : JVal :=
  JVal.obj
    ([("rpc", JVal.str m.rpc), ("message_id", JVal.str m.messageId)]
      ++ (if m.transportId = "" then [] else [("transport_id", JVal.str m.transportId)])
      ++ [("who", JVal.str m.who), ("deadline", JVal.num m.deadline),
          ("args", JVal.obj m.args)]
      ++ (if m.response.isEmpty then [] else [("response", JVal.obj m.response)])
      ++ (if m.stash.isEmpty then [] else [("stash", JVal.obj m.stash)])
      ++ (if m.trace.isEmpty then [] else [("trace", JVal.obj m.trace)]))

/-- Decoding of one string-typed struct field by `json.Unmarshal`: a missing
key keeps the zero value `""`, a string value is accepted, and any other
JSON type is an unmarshal type error. -/
def decodeStringField (data : JMap) (key : String) : Except String String :=
  match List.lookup key data with
  | none => .ok ""
  | some (JVal.str s) => .ok s
  | some _ => .error ("cannot unmarshal field " ++ key)

/-- Decoding of the `int64` field `deadline` by `json.Unmarshal`: missing
keeps 0, a number is accepted, anything else is a type error. -/
def decodeIntField (data : JMap) (key : String) : Except String Int :=
  match List.lookup key data with
  | none => .ok 0
  | some (JVal.num n) => .ok n
  | some _ => .error ("cannot unmarshal field " ++ key)

/-- Decoding of a `map[string]interface\x7b\x7d` struct field by
`json.Unmarshal`: missing keeps the nil map (modelled `[]`), a JSON object
is accepted, and any other JSON type — in particular a STRING holding
JSON text — is an unmarshal type error. -/
def decodeMapField (data : JMap) (key : String) : Except String JMap :=
  match List.lookup key data with
  | none => .ok []
  | some (JVal.obj fields) => .ok fields
  | some _ => .error ("cannot unmarshal field " ++ key)

/-- Embedding of `parseNestedJSON` (rpc_message.go lines 74-86) as invoked
from `FromJSON`.  In the source the function takes `interface\x7b\x7d`, but
every call site passes a struct field whose static type is already
`map[string]interface\x7b\x7d` — `json.Unmarshal` has rejected any
non-object wire value before this point — so only the map branch and the
default branch are reachable, and the string-parsing branch is dead code. -/
def parseNestedJSON (field : JMap) : JMap := field

/-- Embedding of `FromJSON` (rpc_message.go lines 58-71): `json.Unmarshal`
into the typed struct (an error on any field whose wire type mismatches the
struct field type), followed by `parseNestedJSON` on the four maps. -/
def FromJSON (doc : JVal) : Except String RPCMessage :=
  match doc with
  | JVal.obj data => do
      let rpc ← decodeStringField data "rpc"
      let messageId ← decodeStringField data "message_id"
      let transportId ← decodeStringField data "transport_id"
      let who ← decodeStringField data "who"
      let deadline ← decodeIntField data "deadline"
      let args ← decodeMapField data "args"
      let response ← decodeMapField data "response"
      let stash ← decodeMapField data "stash"
      let trace ← decodeMapField data "trace"
      pure { rpc := rpc, messageId := messageId, transportId := transportId,
             who := who, deadline := deadline,
             args := parseNestedJSON args, response := parseNestedJSON response,
             stash := parseNestedJSON stash, trace := parseNestedJSON trace }
  | _ => .error "failed to deserialize message"

/-- Embedding of the method `ToMap` (rpc_message.go lines 90-102). -/
def RPCMessage.ToMap (m : RPCMessage) : JMap :=
  [("rpc", JVal.str m.rpc), ("message_id", JVal.str m.messageId),
   ("transport_id", JVal.str m.transportId), ("who", JVal.str m.who),
   ("deadline", JVal.num m.deadline), ("args", JVal.obj m.args),
   ("response", JVal.obj m.response), ("stash", JVal.obj m.stash),
   ("trace", JVal.obj m.trace)]

/-- Embedding of the method `FromMap` (rpc_message.go lines 104-114) applied
to the zero-valued message (`MapToRPCMessage` allocates `&RPCMessage\x7b\x7d`
first): each field is set only when the map entry exists AND the type
assertion succeeds; in particular a string-valued `args`/`response`/`stash`/
`trace` entry fails the `map[string]interface\x7b\x7d` assertion and is
silently dropped. -/
def RPCMessage.FromMap (data : JMap) : RPCMessage :=
  { rpc := match List.lookup "rpc" data with
      | some (JVal.str v) => v
      | _ => ""
    messageId := match List.lookup "message_id" data with
      | some (JVal.str v) => v
      | _ => ""
    transportId := match List.lookup "transport_id" data with
      | some (JVal.str v) => v
      | _ => ""
    who := match List.lookup "who" data with
      | some (JVal.str v) => v
      | _ => ""
    deadline := match List.lookup "deadline" data with
      | some (JVal.num v) => v
      | _ => 0
    args := match List.lookup "args" data with
      | some (JVal.obj v) => v
      | _ => []
    response := match List.lookup "response" data with
      | some (JVal.obj v) => v
      | _ => []
    stash := match List.lookup "stash" data with
      | some (JVal.obj v) => v
      | _ => []
    trace := match List.lookup "trace" data with
      | some (JVal.obj v) => v
      | _ => [] }

/-- Embedding of `MapToRPCMessage` (unnamed/part_010 lines 109-113). -/
def MapToRPCMessage (data : JMap) : RPCMessage := RPCMessage.FromMap data

/-! ### RPC client / transport (unnamed/part_010) -/

/-- State of one `RPCClient`: its identity, subscription flag and the key
set of the `pending` map (`map[string]chan *RPCMessage`; we track the
registered message ids, slot channels being single-use). -/
structure ClientState where
  whoami : String
  subscribed : Bool
  pending : List String

/-- Stream name built by `CallRPC` (part_010 line 64):
`fmt.Sprintf("service.%s.rpc/%s", service, request.RPC)`. -/
def streamName (service rpc : String) : String :=
  "service." ++ service ++ ".rpc/" ++ rpc

/-- Effective timeout of `CallRPC` (part_010 lines 52-55): 120 s unless a
positive timeout was passed (`timeout ...time.Duration` variadic argument,
modelled as an `Option`).  Nanosecond units. -/
def effectiveTimeout (timeoutArg : Option Nat) : Nat :=
  match timeoutArg with
  | some t => if 0 < t then t else 120000000000
  | none => 120000000000

/-- Envelope built by `CallRPC` (part_010 line 57):
`NewRPCMessage(method, c.Whoami, args, effectiveTimeout)`. -/
def callRequest (st : ClientState) (method : String) (args : JMap)
    (nowNs : Nat) (timeoutArg : Option Nat) (freshId : String) : RPCMessage :=
  NewRPCMessage method st.whoami args nowNs (effectiveTimeout timeoutArg) freshId

/-- How the `select` at the end of `CallRPC` resolves (or how the call
aborts before reaching it): the response envelope is delivered on the
slot, the `time.After` timer fires first, or `broker.XAdd` returns an
error. -/
inductive CallOutcome where
  | delivered (msg : RPCMessage)
  | timeoutFired
  | appendFailed (err : String)

/-- Registration of the rendezvous slot (part_010 lines 59-60):
`c.pending[messageID] = respChan`. -/
def registerSlot (st : ClientState) (freshId : String) : ClientState :=
  { st with pending := st.pending ++ [freshId] }

/-- Embedding of `CallRPC` (part_010 lines 46-77).  Returns the Go
`(map[string]interface\x7b\x7d, error)` pair together with the client state
after the call.  Note the `appendFailed` branch (line 66: `return nil, err`)
returns WITHOUT deleting the pending entry registered at line 60. -/
def CallRPC (st : ClientState) (method : String) (args : JMap)
    (nowNs : Nat) (timeoutArg : Option Nat) (freshId : String)
    (outcome : CallOutcome) : Except String JMap × ClientState :=
  if st.subscribed = false then
    (.error "client is not subscribed to channel", st)
  else
    let st1 := registerSlot st freshId
    match outcome with
    | .appendFailed err => (.error err, st1)
    | .delivered msg =>
        (.ok msg.response, { st1 with pending := st1.pending.erase freshId })
    | .timeoutFired =>
        (.error "rpc call timeout", { st1 with pending := st1.pending.erase freshId })

/-! ### RPC client pool state (unnamed/part_000) -/

/-- State of an `RPCClientPool`.  Clients are identified by the `Nat` id
they were allocated (insertion order in `clients`); `active` embeds the Go
map `activeRequests map[*RPCClient]int` (a missing key reads as 0);
`subscribed` tracks each client's `Subscribed` flag; `nextId` is the
allocator for fresh client identities. -/
structure PoolState where
  clients : List Nat
  active : Nat → Nat
  subscribed : Nat → Bool
  nextId : Nat
  initialClients : Nat
  maxClients : Nat
  maxRequestsPerClient : Nat

/-- Pointwise update of a Go `map[*RPCClient]int`. -/
def setActive (f : Nat → Nat) (c v : Nat) : Nat → Nat :=
  fun x => if x = c then v else f x

/-- The scan both `GetClient` (part_000 lines 239-244) and the spawned
waiter goroutine (lines 264-271) perform: the first client in insertion
order whose active count is below `maxRequestsPerClient`. -/
def findAvailable (p : PoolState) : Option Nat :=
  p.clients.find? (fun c => p.active c < p.maxRequestsPerClient)

/-- Result of `RPCClientPool.GetClient`: either a client with the pool
state as updated under the mutex, or the saturation timeout error
`"timeout: no available clients"` (part_000 line 280), in which case the
synchronous part left the pool unchanged. -/
inductive GetClientResult where
  | ok (c : Nat) (p : PoolState)
  | saturated (p : PoolState)

/-- The part of `GetClient` (part_000 lines 235-257) that runs under the
mutex before the waiting phase: scan for an under-cap client and increment
it, else if the fleet is below `maxClients` create a new client, `Start()`
it (success modelled by `startOk`) and, on success, append it with one
active request.  `none` means execution falls through to the waiting
phase at lines 259-281. -/
def GetClientSync (p : PoolState) (startOk : Bool) : Option (Nat × PoolState) :=
  match findAvailable p with
  | some c => some (c, { p with active := setActive p.active c (p.active c + 1) })
  | none =>
      if p.clients.length < p.maxClients ∧ startOk then
        some (p.nextId,
          { p with
            clients := p.clients ++ [p.nextId]
            active := setActive p.active p.nextId 1
            subscribed := fun x => if x = p.nextId then true else p.subscribed x
            nextId := p.nextId + 1 })
      else none

/-- Embedding of `GetClient` (part_000 lines 235-282).  When the
synchronous part finds no slot, the call enters the waiting `select` while
STILL HOLDING the pool mutex (`defer p.mutex.Unlock()` at line 237 only
runs on return), so the spawned waiter goroutine can never acquire the
mutex before the call returns and the `select` can only resolve through
`time.After` — the theorem `waitPhaseOnlyTimesOut` below proves this in
the small-step model `WaitSys`; accordingly the waiting phase is embedded
as the saturation return. -/
def GetClient (p : PoolState) (startOk : Bool) : GetClientResult :=
  match GetClientSync p startOk with
  | some (c, p') => .ok c p'
  | none => .saturated p

/-- Embedding of `ReturnClient` (part_000 lines 284-291): decrement the
client's count if strictly positive, under the mutex. -/
def ReturnClient (p : PoolState) (c : Nat) : PoolState :=
  if 0 < p.active c then { p with active := setActive p.active c (p.active c - 1) }
  else p

/-- Embedding of `RPCClient.Close` (part_010 lines 92-107) acting on the
pool's view of a client: if subscribed, unsubscribe (success given by
`closeOk`; on success `Subscribed` becomes false, on error it is left
true and the error is returned); an unsubscribed client closes trivially.
The first component is the Go `err == nil` test. -/
def closeClient (closeOk : Nat → Bool) (sub : Nat → Bool) (c : Nat) :
    Bool × (Nat → Bool) :=
  if sub c then
    if closeOk c then (true, fun x => if x = c then false else sub x)
    else (false, sub)
  else (true, sub)

/-- Body of one iteration of the scale-down loop (part_000 lines 205-220)
at index `i`: when `i` is still in range and at or above `initialClients`,
look at `p.clients[i]`; if its active count is 0 and `Close()` succeeds,
the source sets `p.clients = p.clients[:i]` — a TRUNCATION that also drops
every client above index `i` — and deletes the (zero) map entry, which the
default-0 model renders as no change to `active`.  A failed `Close()`
leaves the pool unchanged (the client is kept, with a warning log). -/
def scaleDownProcess (closeOk : Nat → Bool) (p : PoolState) (i : Nat) : PoolState :=
  if p.initialClients ≤ i then
    match p.clients.get? i with
    | some c =>
        if p.active c = 0 then
          match closeClient closeOk p.subscribed c with
          | (true, sub') => { p with clients := p.clients.take i, subscribed := sub' }
          | (false, _) => p
        else p
    | none => p
  else p

/-- The scale-down loop `for i := len(p.clients)-1; i >= p.initialClients; i--`
run from index `i` down to 0; iterations below `initialClients` are
no-ops in `scaleDownProcess`, matching the loop condition. -/
def scaleDownIter (closeOk : Nat → Bool) (p : PoolState) : Nat → PoolState
  | 0 => scaleDownProcess closeOk p 0
  | i + 1 => scaleDownIter closeOk (scaleDownProcess closeOk p (i + 1)) i

/-- One tick of `scaleDownClients` (part_000 lines 197-228) with scaling
enabled: when `len(p.clients) > p.initialClients`, run the loop from the
last index. -/
def scaleDownTick (closeOk : Nat → Bool) (p : PoolState) : PoolState :=
  if p.initialClients < p.clients.length then
    match p.clients.length with
    | 0 => p
    | n + 1 => scaleDownIter closeOk p n
  else p

/-- Embedding of `RPCClientPool.Close` (part_000 lines 299-305) on the
subscription flags: call `Close()` on every client in order; errors are
ignored and — notably — no client is removed from `clients`. -/
def poolCloseSubs (closeOk : Nat → Bool) (sub : Nat → Bool) : List Nat → (Nat → Bool)
  | [] => sub
  | c :: rest => poolCloseSubs closeOk (closeClient closeOk sub c).2 rest

/-- Embedding of `RPCClientPool.Close`. -/
def PoolClose (closeOk : Nat → Bool) (p : PoolState) : PoolState :=
  { p with subscribed := poolCloseSubs closeOk p.subscribed p.clients }

/-- The constructor loop of `NewRPCClientPool` (part_000 lines 145-155):
create `initial` clients; each one that `Start()`s successfully is appended
with a zero active count. -/
def mkPoolLoop (startOk : Nat → Bool) (p : PoolState) : Nat → PoolState
  | 0 => p
  | n + 1 =>
      mkPoolLoop startOk
        (if startOk p.nextId then
          { p with
            clients := p.clients ++ [p.nextId]
            subscribed := fun x => if x = p.nextId then true else p.subscribed x
            nextId := p.nextId + 1 }
        else p) n

/-- The empty pool the constructor starts from: no clients, all counts
zero, nothing subscribed. -/
def poolBase (initial max cap : Nat) : PoolState :=
  { clients := []
    active := fun _ => 0
    subscribed := fun _ => false
    nextId := 0
    initialClients := initial
    maxClients := max
    maxRequestsPerClient := cap }

/-- Embedding of `NewRPCClientPool` (part_000 lines 131-162). -/
def NewRPCClientPool (initial max cap : Nat) (startOk : Nat → Bool) : PoolState :=
  mkPoolLoop startOk (poolBase initial max cap) initial

/-! ### Pool operations and reachable states -/

/-- The operations that mutate pool state between construction and
`Close`: an acquisition (`GetClient`, with the new client's `Start()`
outcome), a release (`ReturnClient`), one successful scan of a leaked
waiter goroutine (lines 264-271 of part_000, which increments the first
under-cap client), and one scale-down tick. -/
inductive PoolOp where
  | acquire (startOk : Bool)
  | release (c : Nat)
  | waiterScan
  | scaleDown (closeOk : Nat → Bool)

/-- Effect of one operation on the pool state. -/
def applyOp (p : PoolState) : PoolOp → PoolState
  | .acquire startOk =>
      match GetClient p startOk with
      | .ok _ p' => p'
      | .saturated p' => p'
  | .release c => ReturnClient p c
  | .waiterScan =>
      match findAvailable p with
      | some c => { p with active := setActive p.active c (p.active c + 1) }
      | none => p
  | .scaleDown closeOk => scaleDownTick closeOk p

/-- Pool states reachable from construction through acquire / release /
waiter-scan / scale-down, before `Close` is invoked. -/
inductive PoolReachable (initial max cap : Nat) (startOk : Nat → Bool) : PoolState → Prop
  | init : PoolReachable initial max cap startOk (NewRPCClientPool initial max cap startOk)
  | step (p : PoolState) (op : PoolOp) :
      PoolReachable initial max cap startOk p →
      PoolReachable initial max cap startOk (applyOp p op)

/-- The spec's pool invariant (§8): the fleet size is between `initial`
and `max`, every listed client's active count is within the per-client
cap, and every listed client is subscribed. -/
def PoolInv (p : PoolState) : Prop :=
  p.initialClients ≤ p.clients.length ∧
  p.clients.length ≤ p.maxClients ∧
  ∀ c ∈ p.clients, p.active c ≤ p.maxRequestsPerClient ∧ p.subscribed c = true

/-- Strengthened invariant carried through the induction: the spec
invariant, distinct client identities below the allocator, and a sane
configuration. -/
def PoolWF (p : PoolState) : Prop :=
  PoolInv p ∧ p.clients.Nodup ∧ (∀ c ∈ p.clients, c < p.nextId) ∧
  1 ≤ p.maxRequestsPerClient ∧ p.initialClients ≤ p.maxClients

/-- Reading the updated key of a Go map update. -/
theorem setActive_self (f : Nat → Nat) (c v : Nat) : setActive f c v c = v := by
  simp [setActive]

/-- Reading any other key of a Go map update. -/
theorem setActive_other (f : Nat → Nat) (c v x : Nat) (h : x ≠ c) :
    setActive f c v x = f x := by
  simp [setActive, h]

/-- An element sitting at index `i` of a duplicate-free list does not
occur among the first `i` elements. -/
theorem get?_not_mem_take (l : List Nat) :
    ∀ (i : Nat) (c : Nat), l.Nodup → l.get? i = some c → c ∉ l.take i := by
  induction l with
  | nil => intro i c _ hg; simp [List.get?] at hg
  | cons x xs ih =>
      intro i c hnd hg
      cases i with
      | zero => simp
      | succ j =>
          simp only [List.get?] at hg
          intro hmem
          rw [List.take_succ_cons] at hmem
          rcases List.mem_cons.mp hmem with he | hmem'
          · subst he
            exact (List.nodup_cons.mp hnd).1 (List.get?_mem hg)
          · exact ih j c (List.nodup_cons.mp hnd).2 hg hmem'

/-- The synchronous part of `GetClient` preserves the pool invariant. -/
theorem GetClientSync_wf (p : PoolState) (b : Bool) (h : PoolWF p) :
    ∀ c p', GetClientSync p b = some (c, p') → PoolWF p' := by
  intro c p' hg
  obtain ⟨⟨hlo, hhi, hmem⟩, hnd, hbound, hcap, him⟩ := h
  unfold GetClientSync at hg
  cases hf : findAvailable p with
  | some d =>
      rw [hf] at hg
      have hdlt : p.active d < p.maxRequestsPerClient := by
        have := List.find?_some hf
        simpa using this
      cases hg
      refine ⟨⟨hlo, hhi, ?_⟩, hnd, hbound, hcap, him⟩
      intro x hx
      dsimp only at hx ⊢
      by_cases hxc : x = c
      · subst hxc
        refine ⟨?_, (hmem x hx).2⟩
        rw [setActive_self]
        omega
      · rw [setActive_other _ _ _ _ hxc]
        exact hmem x hx
  | none =>
      rw [hf] at hg
      by_cases hcond : p.clients.length < p.maxClients ∧ b = true
      · rw [if_pos hcond] at hg
        cases hg
        have hfresh : p.nextId ∉ p.clients := fun hm => by
          have := hbound _ hm
          omega
        refine ⟨⟨?_, ?_, ?_⟩, ?_, ?_, hcap, him⟩
        · dsimp only
          simp only [List.length_append, List.length_cons, List.length_nil]
          omega
        · dsimp only
          simp only [List.length_append, List.length_cons, List.length_nil]
          omega
        · intro x hx
          dsimp only at hx ⊢
          rcases List.mem_append.mp hx with hxo | hxn
          · have hxne : x ≠ p.nextId := fun e => hfresh (e ▸ hxo)
            rw [setActive_other _ _ _ _ hxne]
            simp only [if_neg hxne]
            exact hmem x hxo
          · have hxe : x = p.nextId := by simpa using hxn
            subst hxe
            refine ⟨by rw [setActive_self]; exact hcap, by simp⟩
        · dsimp only
          rw [List.nodup_append]
          exact ⟨hnd, List.nodup_singleton _, fun x hx hm => by
            have hxe : x = p.nextId := by simpa using hm
            exact hfresh (hxe ▸ hx)⟩
        · intro x hx
          dsimp only at hx ⊢
          rcases List.mem_append.mp hx with hxo | hxn
          · have := hbound x hxo
            omega
          · have hxe : x = p.nextId := by simpa using hxn
            omega
      · rw [if_neg hcond] at hg
        cases hg

/-- `ReturnClient` preserves the pool invariant. -/
theorem ReturnClient_wf (p : PoolState) (c : Nat) (h : PoolWF p) :
    PoolWF (ReturnClient p c) := by
  obtain ⟨⟨hlo, hhi, hmem⟩, hnd, hbound, hcap, him⟩ := h
  unfold ReturnClient
  by_cases hpos : 0 < p.active c
  · rw [if_pos hpos]
    refine ⟨⟨hlo, hhi, ?_⟩, hnd, hbound, hcap, him⟩
    intro x hx
    dsimp only at hx ⊢
    by_cases hxc : x = c
    · subst hxc
      have hm := hmem x hx
      refine ⟨?_, hm.2⟩
      rw [setActive_self]
      omega
    · rw [setActive_other _ _ _ _ hxc]
      exact hmem x hx
  · rw [if_neg hpos]
    exact ⟨⟨hlo, hhi, hmem⟩, hnd, hbound, hcap, him⟩

/-- On a client at an index the body of the scale-down loop may truncate,
`closeClient` either fails (no change) or changes only that client's
subscription flag. -/
theorem closeClient_other (closeOk : Nat → Bool) (sub : Nat → Bool) (c : Nat)
    (sub' : Nat → Bool) (h : closeClient closeOk sub c = (true, sub')) :
    ∀ x, x ≠ c → sub' x = sub x := by
  intro x hx
  unfold closeClient at h
  by_cases hs : sub c = true
  · rw [if_pos hs] at h
    by_cases hok : closeOk c = true
    · rw [if_pos hok] at h
      injection h with h1 h2
      rw [← h2]
      simp [if_neg hx]
    · rw [if_neg hok] at h
      injection h with h1 h2
      cases h1
  · rw [if_neg hs] at h
    injection h with h1 h2
    rw [← h2]

/-- One iteration body of the scale-down loop preserves the pool
invariant. -/
theorem scaleDownProcess_wf (closeOk : Nat → Bool) (p : PoolState) (i : Nat)
    (h : PoolWF p) : PoolWF (scaleDownProcess closeOk p i) := by
  obtain ⟨⟨hlo, hhi, hmem⟩, hnd, hbound, hcap, him⟩ := h
  unfold scaleDownProcess
  by_cases hi : p.initialClients ≤ i
  swap
  · rw [if_neg hi]
    exact ⟨⟨hlo, hhi, hmem⟩, hnd, hbound, hcap, him⟩
  rw [if_pos hi]
  cases hg : p.clients.get? i with
  | none => exact ⟨⟨hlo, hhi, hmem⟩, hnd, hbound, hcap, him⟩
  | some c =>
      dsimp only
      by_cases ha : p.active c = 0
      swap
      · rw [if_neg ha]
        exact ⟨⟨hlo, hhi, hmem⟩, hnd, hbound, hcap, him⟩
      rw [if_pos ha]
      rcases hcc : closeClient closeOk p.subscribed c with ⟨ok, sub'⟩
      cases ok with
      | false => exact ⟨⟨hlo, hhi, hmem⟩, hnd, hbound, hcap, him⟩
      | true =>
          dsimp only
          have hlt : i < p.clients.length := by
            rw [List.get?_eq_some] at hg
            exact hg.1
          have hlen : (p.clients.take i).length = i := by
            rw [List.length_take]
            omega
          have hsub : ∀ x ∈ p.clients.take i, x ∈ p.clients :=
            fun x hx => (List.take_sublist i p.clients).subset hx
          have hnotc : c ∉ p.clients.take i := get?_not_mem_take p.clients i c hnd hg
          refine ⟨⟨?_, ?_, ?_⟩, (List.take_sublist i p.clients).nodup hnd, ?_, hcap, him⟩
          · dsimp only
            rw [hlen]
            exact hi
          · dsimp only
            rw [hlen]
            omega
          · intro x hx
            dsimp only at hx ⊢
            have hxc : x ≠ c := fun e => hnotc (e ▸ hx)
            rw [closeClient_other closeOk p.subscribed c sub' hcc x hxc]
            exact hmem x (hsub x hx)
          · intro x hx
            dsimp only at hx ⊢
            exact hbound x (hsub x hx)

/-- The scale-down loop preserves the pool invariant. -/
theorem scaleDownIter_wf (closeOk : Nat → Bool) :
    ∀ (i : Nat) (p : PoolState), PoolWF p → PoolWF (scaleDownIter closeOk p i)
  | 0, p, h => scaleDownProcess_wf closeOk p 0 h
  | i + 1, p, h =>
      scaleDownIter_wf closeOk i (scaleDownProcess closeOk p (i + 1))
        (scaleDownProcess_wf closeOk p (i + 1) h)

/-- One scale-down tick preserves the pool invariant. -/
theorem scaleDownTick_wf (closeOk : Nat → Bool) (p : PoolState) (h : PoolWF p) :
    PoolWF (scaleDownTick closeOk p) := by
  unfold scaleDownTick
  by_cases hc : p.initialClients < p.clients.length
  · rw [if_pos hc]
    cases hl : p.clients.length with
    | zero => exact h
    | succ n => exact scaleDownIter_wf closeOk n p h
  · rw [if_neg hc]
    exact h

/-- Every pool operation preserves the pool invariant. -/
theorem applyOp_wf (p : PoolState) (op : PoolOp) (h : PoolWF p) :
    PoolWF (applyOp p op) := by
  cases op with
  | acquire startOk =>
      rcases hg : GetClientSync p startOk with _ | ⟨c, p'⟩
      · dsimp only [applyOp, GetClient]
        rw [hg]
        exact h
      · dsimp only [applyOp, GetClient]
        rw [hg]
        exact GetClientSync_wf p startOk h c p' hg
  | release c => exact ReturnClient_wf p c h
  | waiterScan =>
      obtain ⟨⟨hlo, hhi, hmem⟩, hnd, hbound, hcap, him⟩ := h
      unfold applyOp
      cases hf : findAvailable p with
      | none => exact ⟨⟨hlo, hhi, hmem⟩, hnd, hbound, hcap, him⟩
      | some c =>
          have hdlt : p.active c < p.maxRequestsPerClient := by
            have := List.find?_some hf
            simpa using this
          refine ⟨⟨hlo, hhi, ?_⟩, hnd, hbound, hcap, him⟩
          intro x hx
          dsimp only at hx ⊢
          by_cases hxc : x = c
          · subst hxc
            refine ⟨?_, (hmem x hx).2⟩
            rw [setActive_self]
            omega
          · rw [setActive_other _ _ _ _ hxc]
            exact hmem x hx
  | scaleDown closeOk => exact scaleDownTick_wf closeOk p h

/-- The constructor loop does not touch the active counts or the
configuration fields. -/
theorem mkPoolLoop_pres (startOk : Nat → Bool) :
    ∀ (n : Nat) (p : PoolState),
      (mkPoolLoop startOk p n).active = p.active ∧
      (mkPoolLoop startOk p n).initialClients = p.initialClients ∧
      (mkPoolLoop startOk p n).maxClients = p.maxClients ∧
      (mkPoolLoop startOk p n).maxRequestsPerClient = p.maxRequestsPerClient
  | 0, p => ⟨rfl, rfl, rfl, rfl⟩
  | n + 1, p => by
      cases h : startOk p.nextId with
      | false => simpa [mkPoolLoop, h] using mkPoolLoop_pres startOk n p
      | true =>
          have := mkPoolLoop_pres startOk n
            { p with
              clients := p.clients ++ [p.nextId]
              subscribed := fun x => if x = p.nextId then true else p.subscribed x
              nextId := p.nextId + 1 }
          simpa [mkPoolLoop, h] using this

/-- When every `Start()` succeeds, the constructor loop adds exactly one
client per iteration. -/
theorem mkPoolLoop_length (startOk : Nat → Bool) (hall : ∀ k, startOk k = true) :
    ∀ (n : Nat) (p : PoolState),
      (mkPoolLoop startOk p n).clients.length = p.clients.length + n
  | 0, p => rfl
  | n + 1, p => by
      have := mkPoolLoop_length startOk hall n
        { p with
          clients := p.clients ++ [p.nextId]
          subscribed := fun x => if x = p.nextId then true else p.subscribed x
          nextId := p.nextId + 1 }
      simp only [mkPoolLoop, hall p.nextId, if_pos]
      simp only [this, List.length_append, List.length_cons, List.length_nil]
      omega

/-- The constructor loop keeps clients duplicate-free, below the
allocator, and subscribed. -/
theorem mkPoolLoop_invP (startOk : Nat → Bool) :
    ∀ (n : Nat) (p : PoolState),
      p.clients.Nodup → (∀ c ∈ p.clients, c < p.nextId) →
      (∀ c ∈ p.clients, p.subscribed c = true) →
      (mkPoolLoop startOk p n).clients.Nodup ∧
      (∀ c ∈ (mkPoolLoop startOk p n).clients, c < (mkPoolLoop startOk p n).nextId) ∧
      (∀ c ∈ (mkPoolLoop startOk p n).clients,
        (mkPoolLoop startOk p n).subscribed c = true)
  | 0, p, hnd, hbound, hsub => ⟨hnd, hbound, hsub⟩
  | n + 1, p, hnd, hbound, hsub => by
      cases h : startOk p.nextId with
      | false =>
          simpa [mkPoolLoop, h] using mkPoolLoop_invP startOk n p hnd hbound hsub
      | true =>
          have hfresh : p.nextId ∉ p.clients := fun hm => by
            have := hbound _ hm
            omega
          have hnd' : (p.clients ++ [p.nextId]).Nodup := by
            rw [List.nodup_append]
            exact ⟨hnd, List.nodup_singleton _, fun x hx hm => by
              have hxe : x = p.nextId := by simpa using hm
              exact hfresh (hxe ▸ hx)⟩
          have hbound' : ∀ c ∈ p.clients ++ [p.nextId], c < p.nextId + 1 := by
            intro x hx
            rcases List.mem_append.mp hx with hxo | hxn
            · have := hbound x hxo
              omega
            · have hxe : x = p.nextId := by simpa using hxn
              omega
          have hsub' : ∀ c ∈ p.clients ++ [p.nextId],
              (if c = p.nextId then true else p.subscribed c) = true := by
            intro x hx
            by_cases hxe : x = p.nextId
            · simp [hxe]
            · rcases List.mem_append.mp hx with hxo | hxn
              · simp only [if_neg hxe]
                exact hsub x hxo
              · exact absurd (by simpa using hxn) hxe
          simpa [mkPoolLoop, h] using
            mkPoolLoop_invP startOk n
              { p with
                clients := p.clients ++ [p.nextId]
                subscribed := fun x => if x = p.nextId then true else p.subscribed x
                nextId := p.nextId + 1 } hnd' hbound' hsub'

/-- The freshly constructed pool is well-formed when every initial
`Start()` succeeds and the configuration is sane. -/
theorem NewRPCClientPool_wf (initial max cap : Nat) (startOk : Nat → Bool)
    (hall : ∀ k, startOk k = true) (him : initial ≤ max) (hcap : 1 ≤ cap) :
    PoolWF (NewRPCClientPool initial max cap startOk) := by
  unfold NewRPCClientPool
  obtain ⟨hact, hini, hmax, hcapf⟩ := mkPoolLoop_pres startOk initial (poolBase initial max cap)
  obtain ⟨hnd, hbound, hsub⟩ := mkPoolLoop_invP startOk initial (poolBase initial max cap)
    (by simp [poolBase]) (by simp [poolBase]) (by simp [poolBase])
  have hlen := mkPoolLoop_length startOk hall initial (poolBase initial max cap)
  have hb1 : (poolBase initial max cap).clients.length = 0 := rfl
  have hb2 : (poolBase initial max cap).initialClients = initial := rfl
  have hb3 : (poolBase initial max cap).maxClients = max := rfl
  have hb4 : (poolBase initial max cap).maxRequestsPerClient = cap := rfl
  have hb5 : ∀ x, (poolBase initial max cap).active x = 0 := fun _ => rfl
  refine ⟨⟨?_, ?_, ?_⟩, hnd, hbound, ?_, ?_⟩
  · rw [hlen, hini, hb1, hb2]
    omega
  · rw [hlen, hmax, hb1, hb3]
    omega
  · intro x hx
    constructor
    · rw [hact, hcapf, hb5, hb4]
      omega
    · exact hsub x hx
  · rw [hcapf, hb4]
    exact hcap
  · rw [hini, hmax, hb2, hb3]
    exact him

/-! ### Small-step model of the waiting phase of `GetClient`
(part_000 lines 236-281)

Three tasks interact once `GetClient` has entered the final `select`:

* `A` — the goroutine executing `GetClient`.  It locked the pool mutex at
  line 236 and `defer`red the unlock to its return, so it holds the mutex
  for the whole `select`; it returns when `time.After(timeout)` fires or
  when a client arrives on `waitChan`.
* `W` — the waiter goroutine spawned at line 260: loop \x7bsleep 10 ms;
  `Lock`; scan; on a hit increment, `Unlock`, send on `waitChan`; otherwise
  `Unlock` and sleep again\x7d.
* `R` — a concurrent `ReturnClient(rc)` call: `Lock`; decrement; `Unlock`.

The mutex is modelled by `owner`; a `Lock` step requires `owner = none`. -/

/-- The three tasks contending for the pool mutex. -/
inductive Thr where
  | A
  | W
  | R
deriving DecidableEq

/-- Program position of the waiter goroutine `W`.  `sending c` means it
has incremented `active[c]`, released the mutex and is blocked on the
unbuffered `waitChan <- client` send. -/
inductive WPhase where
  | sleeping
  | locking
  | scanning
  | sending (c : Nat)
  | wdone
deriving DecidableEq

/-- Program position of the releaser task `R`. -/
inductive RPhase where
  | pending
  | running
  | rdone
deriving DecidableEq

/-- How `GetClient`'s `select` resolved. -/
inductive AResult where
  | timeout
  | got (c : Nat)
deriving DecidableEq

/-- Global state of the waiting-phase system. -/
structure WaitSys where
  owner : Option Thr
  aDone : Bool
  aResult : Option AResult
  w : WPhase
  r : RPhase
  pool : PoolState

/-- State at entry to the waiting phase: `A` holds the mutex (locked at
line 236, `defer`-unlocked only at return), the waiter is in its first
sleep, the releaser has not yet acquired the mutex and the pool is as the
synchronous scan left it. -/
def waitInit (p : PoolState) : WaitSys :=
  { owner := some Thr.A
    aDone := false
    aResult := none
    w := WPhase.sleeping
    r := RPhase.pending
    pool := p }

/-- Interleaved execution steps of the waiting phase; `rc` is the client
the releaser hands back. -/
inductive WStep (rc : Nat) : WaitSys → WaitSys → Prop
  | timeoutFire (s : WaitSys) :
      s.aDone = false →
      WStep rc s { s with aDone := true, aResult := some AResult.timeout, owner := none }
  | recv (s : WaitSys) (c : Nat) :
      s.aDone = false →
      s.w = WPhase.sending c →
      WStep rc s { s with aDone := true, aResult := some (AResult.got c), w := WPhase.wdone }
  | wWake (s : WaitSys) :
      s.w = WPhase.sleeping →
      WStep rc s { s with w := WPhase.locking }
  | wLock (s : WaitSys) :
      s.w = WPhase.locking →
      s.owner = none →
      WStep rc s { s with owner := some Thr.W, w := WPhase.scanning }
  | wScanFound (s : WaitSys) (c : Nat) :
      s.w = WPhase.scanning →
      s.owner = some Thr.W →
      findAvailable s.pool = some c →
      WStep rc s
        { s with
          pool := { s.pool with active := setActive s.pool.active c (s.pool.active c + 1) }
          owner := none
          w := WPhase.sending c }
  | wScanNone (s : WaitSys) :
      s.w = WPhase.scanning →
      s.owner = some Thr.W →
      findAvailable s.pool = none →
      WStep rc s { s with owner := none, w := WPhase.sleeping }
  | rLock (s : WaitSys) :
      s.r = RPhase.pending →
      s.owner = none →
      WStep rc s { s with owner := some Thr.R, r := RPhase.running }
  | rRelease (s : WaitSys) :
      s.r = RPhase.running →
      WStep rc s { s with pool := ReturnClient s.pool rc, owner := none, r := RPhase.rdone }

/-- Reflexive-transitive closure of `WStep`: the states the waiting phase
can reach from `s0`. -/
inductive WReach (rc : Nat) (s0 : WaitSys) : WaitSys → Prop
  | refl : WReach rc s0 s0
  | tail (s s' : WaitSys) : WReach rc s0 s → WStep rc s s' → WReach rc s0 s'

/-! ### Gateway handler (src/api/routes/routes.go) -/

/-- Body the handler writes for an error: `gin.H\x7b"error": msg\x7d`. -/
def errBody (msg : String) : JVal := JVal.obj [("error", JVal.str msg)]

/-- The part of `createHandler` (routes.go lines 209-225) that runs after
`CallRPC` returns: an error becomes a 500 with the error text; on success
the handler looks up the key `"response"` INSIDE the map `CallRPC`
returned (which is already the envelope's `response` field) and replies
200 with that inner map, or 500 `"unexpected response structure"` when the
key is missing or not a map. -/
def handleRPCResult (callResult : Except String JMap) : Nat × JVal :=
  match callResult with
  | .error e => (500, errBody e)
  | .ok response =>
      match List.lookup "response" response with
      | some (JVal.obj inner) => (200, JVal.obj inner)
      | _ => (500, errBody "unexpected response structure")

/-- Full decision structure of the handler `createHandler` produces
(routes.go lines 188-230), as a function of the outcome of each stage:
validation failure → 400; `GetClient` failure → 503 `"all clients are
busy"`; otherwise the `CallRPC` result is rendered by `handleRPCResult`. -/
def createHandler (validation : Except String JMap) (acquired : Bool)
    (callResult : Except String JMap) : Nat × JVal :=
  match validation with
  | .error e => (400, errBody e)
  | .ok _ =>
      if acquired then handleRPCResult callResult
      else (503, errBody "all clients are busy")

/-! ### Service / method derivation (routes.go lines 370-397) -/

/-- Character-level embedding of `strings.ReplaceAll(service, "_", ".")`
(single-character pattern, hence a character map). -/
def replaceUnderscores (s : String) : String :=
  String.map (fun c => if c = '_' then '.' else c) s

/-- Embedding of `strings.Trim(path, "/")`: strip leading and trailing
slashes. -/
def trimSlashes (l : List Char) : List Char :=
  ((l.dropWhile (fun c => c = '/')).reverse.dropWhile (fun c => c = '/')).reverse

/-- Embedding of `strings.Split(path, "/")`: splitting the empty string
yields one empty part. -/
def splitSlash : List Char → List (List Char)
  | [] => [[]]
  | c :: rest =>
      if c = '/' then [] :: splitSlash rest
      else
        match splitSlash rest with
        | g :: gs => (c :: g) :: gs
        | [] => [[c]]

/-- Embedding of `strings.Join(parts, ".")`. -/
def joinDots : List (List Char) → List Char
  | [] => []
  | [l] => l
  | l :: ls => l ++ '.' :: joinDots ls

/-- Join with slashes, used to describe multi-segment request paths in the
theorems below. -/
def joinSlash : List (List Char) → List Char
  | [] => []
  | [l] => l
  | l :: ls => l ++ '/' :: joinSlash ls

/-- Path-derivation half of `getServiceAndMethod` (routes.go lines 378-396)
over the path's characters: trim slashes, split on `/`; a lone empty part
(the root path) gives `("api", "request")`; a single part is the service
with method `"request"`; otherwise the last part is the method and the
rest, joined by dots, the service. -/
def deriveServiceMethod (pathChars : List Char) : List Char × List Char :=
  match splitSlash (trimSlashes pathChars) with
  | [s] => if s = [] then ("api".toList, "request".toList) else (s, "request".toList)
  | parts => (joinDots parts.dropLast, parts.getLastD [])

/-- Embedding of `getServiceAndMethod` (routes.go lines 370-397): when both
a service and a method are configured, the service's underscores are
rewritten to dots; otherwise both are derived from the request path. -/
def getServiceAndMethod (cfgService cfgMethod : String) (fullPath : String) :
    String × String :=
  if cfgService ≠ "" ∧ cfgMethod ≠ "" then (replaceUnderscores cfgService, cfgMethod)
  else
    let sm := deriveServiceMethod fullPath.toList
    (String.mk sm.1, String.mk sm.2)

/-- The stream `createHandler`'s call publishes to: `streamName` applied to
the derived service/method pair (routes.go line 211 feeding part_010
line 64). -/
def outboundStream (cfgService cfgMethod : String) (fullPath : String) : String :=
  streamName (getServiceAndMethod cfgService cfgMethod fullPath).1
    (getServiceAndMethod cfgService cfgMethod fullPath).2

/-! ## Path-splitting lemmas (for claim C9) -/

/-- Splitting never yields an empty list of parts. -/
theorem splitSlash_ne_nil (l : List Char) : splitSlash l ≠ [] := by
  induction l with
  | nil => simp [splitSlash]
  | cons c rest ih =>
      by_cases hc : c = '/'
      · simp [splitSlash, hc]
      · simp only [splitSlash, if_neg hc]
        cases hsp : splitSlash rest with
        | nil => simp
        | cons g gs => simp

/-- A slash-free string splits into itself alone. -/
theorem splitSlash_no_slash (l : List Char) (h : '/' ∉ l) : splitSlash l = [l] := by
  induction l with
  | nil => rfl
  | cons c rest ih =>
      have hc : ¬ c = '/' := fun e => h (by simp [e])
      have hr : '/' ∉ rest := fun m => h (List.mem_cons_of_mem _ m)
      simp only [splitSlash, if_neg hc, ih hr]

/-- Splitting a string that starts with a slash-free part followed by a
slash peels off that part. -/
theorem splitSlash_append (p rest : List Char) (h : '/' ∉ p) :
    splitSlash (p ++ '/' :: rest) = p :: splitSlash rest := by
  induction p with
  | nil => simp [splitSlash]
  | cons c cs ih =>
      have hc : ¬ c = '/' := fun e => h (by simp [e])
      have hcs : '/' ∉ cs := fun m => h (List.mem_cons_of_mem _ m)
      rw [List.cons_append]
      simp only [splitSlash, if_neg hc]
      rw [ih hcs]

/-- Splitting inverts joining for slash-free parts. -/
theorem splitSlash_joinSlash (parts : List (List Char)) (hne : parts ≠ [])
    (hsf : ∀ p ∈ parts, '/' ∉ p) : splitSlash (joinSlash parts) = parts := by
  induction parts with
  | nil => cases hne rfl
  | cons p rest ih =>
      cases rest with
      | nil => exact splitSlash_no_slash p (hsf p (by simp))
      | cons q rs =>
          rw [show joinSlash (p :: q :: rs) = p ++ '/' :: joinSlash (q :: rs) from rfl,
            splitSlash_append p _ (hsf p (by simp)),
            ih (by simp) (fun x hx => hsf x (List.mem_cons_of_mem _ hx))]

/-- A join of nonempty parts is nonempty. -/
theorem joinSlash_ne_nil (parts : List (List Char)) (hne : parts ≠ [])
    (hall : ∀ p ∈ parts, p ≠ []) : joinSlash parts ≠ [] := by
  cases parts with
  | nil => cases hne rfl
  | cons p rest =>
      cases hp : p with
      | nil => exact absurd hp (hall p (by simp))
      | cons c cs => cases rest <;> simp [joinSlash]

/-- The first character of a join of nonempty slash-free parts is not a
slash. -/
theorem joinSlash_head_not_slash (parts : List (List Char)) (hne : parts ≠ [])
    (hall : ∀ p ∈ parts, p ≠ []) (hsf : ∀ p ∈ parts, '/' ∉ p) :
    ∀ c, (joinSlash parts).head? = some c → ¬ c = '/' := by
  cases parts with
  | nil => cases hne rfl
  | cons p rest =>
      intro c hc
      have hpne : p ≠ [] := hall p (by simp)
      have hpsf : '/' ∉ p := hsf p (by simp)
      cases p with
      | nil => cases hpne rfl
      | cons x xs =>
          have hx : (joinSlash ((x :: xs) :: rest)).head? = some x := by
            cases rest <;> rfl
          rw [hx] at hc
          injection hc with hxc
          subst hxc
          exact fun e => hpsf (by rw [← e]; exact List.mem_cons_self x xs)

/-- The last character of a join of nonempty slash-free parts is not a
slash. -/
theorem joinSlash_getLast_not_slash (parts : List (List Char)) (hne : parts ≠ [])
    (hall : ∀ p ∈ parts, p ≠ []) (hsf : ∀ p ∈ parts, '/' ∉ p) :
    ∀ c, (joinSlash parts).getLast? = some c → ¬ c = '/' := by
  induction parts with
  | nil => cases hne rfl
  | cons p rest ih =>
      cases rest with
      | nil =>
          intro c hc
          have hcp : c ∈ p.getLast? := hc
          obtain ⟨hpn, he⟩ := List.mem_getLast?_eq_getLast hcp
          exact fun e => hsf p (by simp) (by rw [← e]; exact he ▸ List.getLast_mem hpn)
      | cons q rs =>
          intro c hc
          rw [show joinSlash (p :: q :: rs) = p ++ '/' :: joinSlash (q :: rs) from rfl,
            List.getLast?_append_cons] at hc
          have hnn : joinSlash (q :: rs) ≠ [] :=
            joinSlash_ne_nil _ (by simp) (fun x hx => hall x (List.mem_cons_of_mem _ hx))
          cases hj : joinSlash (q :: rs) with
          | nil => exact absurd hj hnn
          | cons d ds =>
              rw [hj, List.getLast?_cons_cons] at hc
              exact ih (by simp) (fun x hx => hall x (List.mem_cons_of_mem _ hx))
                (fun x hx => hsf x (List.mem_cons_of_mem _ hx)) c (by rw [hj]; exact hc)

/-- Trimming is the identity on a string that neither starts nor ends with
a slash. -/
theorem trimSlashes_eq_self (l : List Char)
    (hh : ∀ c, l.head? = some c → ¬ c = '/')
    (hl : ∀ c, l.getLast? = some c → ¬ c = '/') :
    trimSlashes l = l := by
  have h1 : l.dropWhile (fun x => x = '/') = l := by
    cases l with
    | nil => rfl
    | cons c rest => simp [List.dropWhile_cons, hh c rfl]
  have h2 : l.reverse.dropWhile (fun x => x = '/') = l.reverse := by
    cases hr : l.reverse with
    | nil => rfl
    | cons c rest =>
        have hc : l.getLast? = some c := by
          rw [← List.head?_reverse, hr]; rfl
        simp [List.dropWhile_cons, hl c hc]
  unfold trimSlashes
  rw [h1, h2, List.reverse_reverse]

/-- Trimming a leading slash followed by a join of nonempty slash-free
parts yields exactly the join. -/
theorem trimSlashes_slash_join (parts : List (List Char)) (hne : parts ≠ [])
    (hall : ∀ p ∈ parts, p ≠ []) (hsf : ∀ p ∈ parts, '/' ∉ p) :
    trimSlashes ('/' :: joinSlash parts) = joinSlash parts := by
  have h0 : ('/' :: joinSlash parts).dropWhile (fun c => c = '/')
      = (joinSlash parts).dropWhile (fun c => c = '/') := by
    simp [List.dropWhile_cons]
  have h1 : trimSlashes ('/' :: joinSlash parts) = trimSlashes (joinSlash parts) := by
    unfold trimSlashes
    rw [h0]
  rw [h1]
  exact trimSlashes_eq_self _ (joinSlash_head_not_slash parts hne hall hsf)
    (joinSlash_getLast_not_slash parts hne hall hsf)

/-! ## Stream naming (claim C9) -/

/-- C9: The outbound stream name is `service.<svc>.rpc/<method>` where
`<svc>` is the configured service with underscores replaced by dots when
service and method are configured; otherwise service and method derive
from the URL path: parts joined by dots with the last part the method, a
single-segment path `/x` giving service `x` with method `"request"`, and
the root path giving `("api", "request")`. -/
theorem outboundStreamNaming (cfgS cfgM path : String)
    (seg : List Char) (parts : List (List Char))
    (hS : cfgS ≠ "") (hM : cfgM ≠ "")
    (hseg1 : seg ≠ []) (hseg2 : '/' ∉ seg)
    (hp1 : 2 ≤ parts.length) (hp2 : ∀ p ∈ parts, p ≠ [])
    (hp3 : ∀ p ∈ parts, '/' ∉ p) :
    (getServiceAndMethod cfgS cfgM path = (replaceUnderscores cfgS, cfgM) ∧
      outboundStream cfgS cfgM path
        = "service." ++ replaceUnderscores cfgS ++ ".rpc/" ++ cfgM) ∧
    getServiceAndMethod "" "" "/" = ("api", "request") ∧
    getServiceAndMethod "" "" (String.mk ('/' :: seg)) = (String.mk seg, "request") ∧
    getServiceAndMethod "" "" (String.mk ('/' :: joinSlash parts))
      = (String.mk (joinDots parts.dropLast), String.mk (parts.getLastD [])) ∧
    outboundStream "" "" (String.mk ('/' :: joinSlash parts))
      = "service." ++ String.mk (joinDots parts.dropLast) ++ ".rpc/"
          ++ String.mk (parts.getLastD []) := by
  have h1 : getServiceAndMethod cfgS cfgM path = (replaceUnderscores cfgS, cfgM) := by
    unfold getServiceAndMethod
    rw [if_pos ⟨hS, hM⟩]
  have h3 : getServiceAndMethod "" "" (String.mk ('/' :: seg))
      = (String.mk seg, "request") := by
    have htrim : trimSlashes ('/' :: seg) = seg := by
      simpa [joinSlash] using
        trimSlashes_slash_join [seg] (by simp) (by simpa using hseg1)
          (by simpa using hseg2)
    have hsplit : splitSlash seg = [seg] := splitSlash_no_slash seg hseg2
    unfold getServiceAndMethod
    rw [if_neg (by simp)]
    simp only [deriveServiceMethod, String.toList, htrim, hsplit]
    rw [if_neg hseg1]
  have hpne : parts ≠ [] := by
    intro e
    rw [e] at hp1
    simp at hp1
  have htrim4 : trimSlashes ('/' :: joinSlash parts) = joinSlash parts :=
    trimSlashes_slash_join parts hpne hp2 hp3
  have hsplit4 : splitSlash (joinSlash parts) = parts :=
    splitSlash_joinSlash parts hpne hp3
  have h4 : getServiceAndMethod "" "" (String.mk ('/' :: joinSlash parts))
      = (String.mk (joinDots parts.dropLast), String.mk (parts.getLastD [])) := by
    unfold getServiceAndMethod
    rw [if_neg (by simp)]
    simp only [deriveServiceMethod, String.toList, htrim4, hsplit4]
    cases parts with
    | nil => cases hpne rfl
    | cons p1 r1 =>
        cases r1 with
        | nil => simp at hp1
        | cons p2 r2 => rfl
  refine ⟨⟨h1, ?_⟩, by decide, h3, h4, ?_⟩
  · unfold outboundStream
    rw [h1]
    rfl
  · unfold outboundStream
    rw [h4]
    rfl

/-- C9 witness: concrete instantiation of `outboundStreamNaming` with the
configured pair `("control_auth", "login")`, the single segment `pay` and
the two-segment path `/a/bc`. -/
theorem outboundStreamNamingWitness :
    (getServiceAndMethod "control_auth" "login" "/foo/bar"
        = (replaceUnderscores "control_auth", "login") ∧
      outboundStream "control_auth" "login" "/foo/bar"
        = "service." ++ replaceUnderscores "control_auth" ++ ".rpc/" ++ "login") ∧
    getServiceAndMethod "" "" "/" = ("api", "request") ∧
    getServiceAndMethod "" "" (String.mk ('/' :: ['p', 'a', 'y']))
      = (String.mk ['p', 'a', 'y'], "request") ∧
    getServiceAndMethod "" "" (String.mk ('/' :: joinSlash [['a'], ['b', 'c']]))
      = (String.mk (joinDots ([['a'], ['b', 'c']]).dropLast),
          String.mk (([['a'], ['b', 'c']]).getLastD [])) ∧
    outboundStream "" "" (String.mk ('/' :: joinSlash [['a'], ['b', 'c']]))
      = "service." ++ String.mk (joinDots ([['a'], ['b', 'c']]).dropLast) ++ ".rpc/"
          ++ String.mk (([['a'], ['b', 'c']]).getLastD []) :=
  outboundStreamNaming "control_auth" "login" "/foo/bar" ['p', 'a', 'y']
    [['a'], ['b', 'c']] (by decide) (by decide) (by decide) (by decide)
    (by decide) (by decide) (by decide)

/-! ## Pool invariant (claim C5) -/

/-- C5 counterexample: `RPCClientPool.Close` calls `Close()` on every
client but removes none from the list, so immediately after a `Close`
operation the pool state violates the claimed invariant "every client in
the clients list is subscribed": client 0 is still listed and no longer
subscribed. -/
theorem poolCloseLeavesClientsListed :
    (NewRPCClientPool 1 3 1 (fun _ => true)).subscribed 0 = true ∧
    (PoolClose (fun _ => true) (NewRPCClientPool 1 3 1 (fun _ => true))).clients = [0] ∧
    0 ∈ (PoolClose (fun _ => true) (NewRPCClientPool 1 3 1 (fun _ => true))).clients ∧
    (PoolClose (fun _ => true) (NewRPCClientPool 1 3 1 (fun _ => true))).subscribed 0
      = false := by
  refine ⟨rfl, rfl, by decide, rfl⟩

/-- C5 (amended): for every pool state reachable from construction through
acquire, release, waiter-scan and scale-down operations — BEFORE `Close`
is invoked — and under a sane configuration (`initial ≤ max`,
`1 ≤ max_requests_per_client`) with all constructor `Start()`s succeeding:
`initial ≤ len(clients) ≤ max`, every listed client's active count is at
most `max_requests_per_client`, and every listed client is subscribed.
`Close` itself breaks the subscription clause
(`poolCloseLeavesClientsListed`). -/
theorem poolInvariantBeforeClose (initial max cap : Nat) (startOk : Nat → Bool)
    (hall : ∀ k, startOk k = true) (him : initial ≤ max) (hcap : 1 ≤ cap)
    (p : PoolState) (hr : PoolReachable initial max cap startOk p) : PoolInv p := by
  have hwf : PoolWF p := by
    induction hr with
    | init => exact NewRPCClientPool_wf initial max cap startOk hall him hcap
    | step q op hq ih => exact applyOp_wf q op ih
  exact hwf.1

/-- C5 witness: the invariant holds at a concrete reachable state — the
pool constructed with `initial=1, max=2, cap=1` after one acquire. -/
theorem poolInvariantWitness :
    PoolInv (applyOp (NewRPCClientPool 1 2 1 (fun _ => true)) (.acquire true)) :=
  poolInvariantBeforeClose 1 2 1 (fun _ => true) (fun _ => rfl) (by omega) (by omega)
    (applyOp (NewRPCClientPool 1 2 1 (fun _ => true)) (.acquire true))
    (PoolReachable.step _ _ PoolReachable.init)

/-! ## Scale-down (claim C2) -/

/-- Pool with three clients in which only the last, client 2, has an
active request; scale-down keeps `initial = 1` client. -/
def poolC2 : PoolState :=
  { clients := [0, 1, 2]
    active := fun c => if c = 2 then 1 else 0
    subscribed := fun _ => true
    nextId := 3
    initialClients := 1
    maxClients := 3
    maxRequestsPerClient := 1 }

/-- C2: evaluation of `scaleDownClients` at the failing input.  The loop
visits index 2 (busy, skipped), then index 1 (idle): closing client 1
executes `p.clients = p.clients[:1]`, a truncation that also removes the
BUSY client 2 from the list — client 2 was never closed (still
subscribed) and its active count is 1, refuting "only clients whose
active-request count is zero are closed and removed". -/
theorem scaleDownTruncatesBusyClient :
    poolC2.active 2 = 1 ∧
    2 ∈ poolC2.clients ∧
    (scaleDownTick (fun _ => true) poolC2).clients = [0] ∧
    2 ∉ (scaleDownTick (fun _ => true) poolC2).clients ∧
    (scaleDownTick (fun _ => true) poolC2).subscribed 2 = true ∧
    (scaleDownTick (fun _ => true) poolC2).subscribed 1 = false := by
  refine ⟨rfl, by decide, rfl, by decide, rfl, rfl⟩

/-! ## Acquisition algorithm (claim C6) -/

/-- The first element after a prefix of predicate failures is what
`find?` returns. -/
theorem find?_first (pred : Nat → Bool) (l1 : List Nat) (c : Nat) (l2 : List Nat)
    (h1 : ∀ d ∈ l1, pred d = false) (hc : pred c = true) :
    (l1 ++ c :: l2).find? pred = some c := by
  induction l1 with
  | nil => simpa using List.find?_cons_of_pos l2 hc
  | cons d l1 ih =>
      rw [List.cons_append,
        List.find?_cons_of_neg _ (by simp [h1 d (List.mem_cons_self d l1)])]
      exact ih (fun d' hd' => h1 d' (List.mem_cons_of_mem _ hd'))

/-- C6: `GetClient` selects, in insertion order, the first client whose
active count is below `maxRequestsPerClient`, increments it and returns
it; otherwise, if the fleet is below `maxClients` and the new client's
`Start()` succeeds, it appends a new client with one active request and
returns it; if `Start()` fails the pool is left unchanged and the call
falls through to waiting; and when it must wait, the acquisition returns
the saturation timeout error (`GetClientResult.saturated`, the
`"timeout: no available clients"` return). -/
theorem acquireAlgorithm (p q : PoolState) (b : Bool) (l1 l2 : List Nat) (c : Nat)
    (hsplit : p.clients = l1 ++ c :: l2)
    (hbusy : ∀ d ∈ l1, ¬ p.active d < p.maxRequestsPerClient)
    (hfree : p.active c < p.maxRequestsPerClient)
    (hnone : findAvailable q = none) :
    GetClient p b = .ok c { p with active := setActive p.active c (p.active c + 1) } ∧
    (q.clients.length < q.maxClients →
      GetClient q true = .ok q.nextId
        { q with
          clients := q.clients ++ [q.nextId]
          active := setActive q.active q.nextId 1
          subscribed := fun x => if x = q.nextId then true else q.subscribed x
          nextId := q.nextId + 1 }) ∧
    (q.clients.length < q.maxClients → GetClient q false = .saturated q) ∧
    (¬ q.clients.length < q.maxClients → GetClient q b = .saturated q) := by
  have hfind : findAvailable p = some c := by
    unfold findAvailable
    rw [hsplit]
    exact find?_first _ l1 c l2
      (fun d hd => by
        simp only [decide_eq_false_iff_not]
        exact hbusy d hd)
      (decide_eq_true hfree)
  refine ⟨?_, ?_, ?_, ?_⟩
  · unfold GetClient GetClientSync
    rw [hfind]
  · intro hroom
    unfold GetClient GetClientSync
    rw [hnone, if_pos ⟨hroom, rfl⟩]
  · intro hroom
    unfold GetClient GetClientSync
    rw [hnone, if_neg (by simp)]
  · intro hfull
    unfold GetClient GetClientSync
    rw [hnone, if_neg (fun hco => hfull hco.1)]

/-- C6 witness: concrete instantiation of `acquireAlgorithm` — a pool
where client 0 is at cap and client 1 is free (first fit selects 1), and a
saturated one-client pool at `max` for the waiting clauses. -/
theorem acquireAlgorithmWitness :
    GetClient
        ⟨[0, 1], fun c => if c = 0 then 1 else 0, fun _ => true, 2, 1, 2, 1⟩ true
      = .ok 1
        { (⟨[0, 1], fun c => if c = 0 then 1 else 0, fun _ => true, 2, 1, 2, 1⟩ : PoolState) with
          active := setActive (fun c => if c = 0 then 1 else 0) 1
            ((if (1 : Nat) = 0 then 1 else 0) + 1) } ∧
    ((⟨[0], fun _ => 1, fun _ => true, 1, 1, 1, 1⟩ : PoolState).clients.length
        < (⟨[0], fun _ => 1, fun _ => true, 1, 1, 1, 1⟩ : PoolState).maxClients →
      GetClient ⟨[0], fun _ => 1, fun _ => true, 1, 1, 1, 1⟩ true
        = .ok 1
          { (⟨[0], fun _ => 1, fun _ => true, 1, 1, 1, 1⟩ : PoolState) with
            clients := [0] ++ [1]
            active := setActive (fun _ => 1) 1 1
            subscribed := fun x => if x = 1 then true else true
            nextId := 2 }) ∧
    ((⟨[0], fun _ => 1, fun _ => true, 1, 1, 1, 1⟩ : PoolState).clients.length
        < (⟨[0], fun _ => 1, fun _ => true, 1, 1, 1, 1⟩ : PoolState).maxClients →
      GetClient ⟨[0], fun _ => 1, fun _ => true, 1, 1, 1, 1⟩ false
        = .saturated ⟨[0], fun _ => 1, fun _ => true, 1, 1, 1, 1⟩) ∧
    (¬ (⟨[0], fun _ => 1, fun _ => true, 1, 1, 1, 1⟩ : PoolState).clients.length
        < (⟨[0], fun _ => 1, fun _ => true, 1, 1, 1, 1⟩ : PoolState).maxClients →
      GetClient ⟨[0], fun _ => 1, fun _ => true, 1, 1, 1, 1⟩ true
        = .saturated ⟨[0], fun _ => 1, fun _ => true, 1, 1, 1, 1⟩) :=
  acquireAlgorithm
    ⟨[0, 1], fun c => if c = 0 then 1 else 0, fun _ => true, 2, 1, 2, 1⟩
    ⟨[0], fun _ => 1, fun _ => true, 1, 1, 1, 1⟩ true [0] [] 1
    rfl (by decide) (by decide) rfl

/-! ## Wait-phase theorems (claims C3 and C10) -/

/-- Invariant of the waiting phase: while `GetClient` has not returned, it
still holds the mutex (the `defer`red unlock runs only at return), so the
waiter goroutine is stuck before its `Lock`, the releaser has not entered
`ReturnClient`'s critical section, and the pool is untouched; and once the
call has returned, its result is the saturation timeout. -/
def waitInv (p0 : PoolState) (s : WaitSys) : Prop :=
  (s.aDone = false →
    s.owner = some Thr.A ∧ (s.w = WPhase.sleeping ∨ s.w = WPhase.locking) ∧
    s.r = RPhase.pending ∧ s.aResult = none ∧ s.pool = p0) ∧
  (s.aDone = true → s.aResult = some AResult.timeout)

/-- The invariant holds at entry to the waiting phase. -/
theorem waitInv_init (p0 : PoolState) : waitInv p0 (waitInit p0) :=
  ⟨fun _ => ⟨rfl, Or.inl rfl, rfl, rfl, rfl⟩, fun h => Bool.noConfusion h⟩

/-- Every step of the waiting phase preserves the invariant. -/
theorem waitInv_step (rc : Nat) (p0 : PoolState) (s s' : WaitSys)
    (h : waitInv p0 s) (hs : WStep rc s s') : waitInv p0 s' := by
  obtain ⟨hN, hD⟩ := h
  cases hs with
  | timeoutFire hA =>
      refine ⟨fun hf => ?_, fun _ => rfl⟩
      simp at hf
  | recv c hA hw =>
      rcases (hN hA).2.1 with h1 | h1 <;> rw [hw] at h1 <;> exact WPhase.noConfusion h1
  | wWake hw =>
      refine ⟨fun hf => ?_, fun ht => hD ht⟩
      obtain ⟨ho, _, hr, hres, hp⟩ := hN hf
      exact ⟨ho, Or.inr rfl, hr, hres, hp⟩
  | wLock hw ho =>
      refine ⟨fun hf => ?_, fun ht => hD ht⟩
      obtain ⟨ho', _, _, _, _⟩ := hN hf
      rw [ho'] at ho
      exact Option.noConfusion ho
  | wScanFound c hw ho hf0 =>
      refine ⟨fun hf => ?_, fun ht => hD ht⟩
      obtain ⟨ho', hwp, _, _, _⟩ := hN hf
      rcases hwp with h1 | h1 <;> rw [hw] at h1 <;> exact WPhase.noConfusion h1
  | wScanNone hw ho hf0 =>
      refine ⟨fun hf => ?_, fun ht => hD ht⟩
      obtain ⟨ho', hwp, _, _, _⟩ := hN hf
      rcases hwp with h1 | h1 <;> rw [hw] at h1 <;> exact WPhase.noConfusion h1
  | rLock hr ho =>
      refine ⟨fun hf => ?_, fun ht => hD ht⟩
      obtain ⟨ho', _, _, _, _⟩ := hN hf
      rw [ho'] at ho
      exact Option.noConfusion ho
  | rRelease hr =>
      refine ⟨fun hf => ?_, fun ht => hD ht⟩
      obtain ⟨_, _, hr', _, _⟩ := hN hf
      rw [hr'] at hr
      exact RPhase.noConfusion hr

/-- The invariant holds at every reachable state of the waiting phase. -/
theorem waitInv_reach (rc : Nat) (p0 : PoolState) (s : WaitSys)
    (h : WReach rc (waitInit p0) s) : waitInv p0 s := by
  induction h with
  | refl => exact waitInv_init p0
  | tail t t' hr hs ih => exact waitInv_step rc p0 t t' ih hs

/-- C3: supporting theorem for the held-mutex bug.  In every reachable
state of the waiting phase in which `GetClient` has returned, the result
is the saturation timeout: because the pool mutex is held across the
`select` (`defer p.mutex.Unlock()`), the waiter goroutine can never pass
its `Lock` and hand over a freed client, so a slot freed by a concurrent
release is never acquired before the acquisition timeout — refuting "a
slot freed by a release is observed and successfully acquired by the
waiter within one poll cycle". -/
theorem waitPhaseOnlyTimesOut (rc : Nat) (p0 : PoolState) (s : WaitSys)
    (hreach : WReach rc (waitInit p0) s) (hdone : s.aDone = true) :
    s.aResult = some AResult.timeout :=
  (waitInv_reach rc p0 s hreach).2 hdone

/-- Saturated one-client pool at its maximum (client 0 at the per-client
cap) whose acquisition entered the waiting phase. -/
def poolC3 : PoolState :=
  { clients := [0]
    active := fun _ => 1
    subscribed := fun _ => true
    nextId := 1
    initialClients := 1
    maxClients := 1
    maxRequestsPerClient := 1 }

/-- C3 witness: `waitPhaseOnlyTimesOut` applied to the state reached after
the timeout fires from the initial waiting state over `poolC3`. -/
theorem waitPhaseOnlyTimesOutWitness :
    ({ waitInit poolC3 with
        aDone := true
        aResult := some AResult.timeout
        owner := none } : WaitSys).aResult = some AResult.timeout :=
  waitPhaseOnlyTimesOut 0 poolC3 _
    (WReach.tail _ _ WReach.refl (WStep.timeoutFire _ rfl)) rfl

/-- Saturated one-client pool used in the leaked-waiter run. -/
def poolC10 : PoolState :=
  { clients := [0]
    active := fun _ => 1
    subscribed := fun _ => true
    nextId := 1
    initialClients := 1
    maxClients := 1
    maxRequestsPerClient := 1 }

/-- State after the acquisition over `poolC10` timed out, a release freed
client 0, and the leaked waiter goroutine woke, locked, re-incremented
client 0 and blocked on its channel send. -/
def leakedWaiterFinal : WaitSys :=
  { owner := none
    aDone := true
    aResult := some AResult.timeout
    w := WPhase.sending 0
    r := RPhase.rdone
    pool :=
      { ReturnClient poolC10 0 with
        active := setActive (ReturnClient poolC10 0).active 0
          ((ReturnClient poolC10 0).active 0 + 1) } }

/-- C10 counterexample: a run in which `GetClient` returned the
`PoolSaturated` timeout, a later `ReturnClient` freed the slot
(`active 0 = 0`), and then the waiter goroutine the failed acquisition
left behind incremented client 0's count back to 1 and blocked forever on
`waitChan <- client` — so the failed acquisition does increment a client's
count at a later time, refuting the claim. -/
theorem leakedWaiterConsumesSlot :
    WReach 0 (waitInit poolC10) leakedWaiterFinal ∧
    leakedWaiterFinal.aResult = some AResult.timeout ∧
    leakedWaiterFinal.w = WPhase.sending 0 ∧
    (ReturnClient poolC10 0).active 0 = 0 ∧
    leakedWaiterFinal.pool.active 0 = 1 := by
  refine ⟨?_, rfl, rfl, rfl, rfl⟩
  have h1 : WStep 0 (waitInit poolC10)
      (⟨none, true, some AResult.timeout, WPhase.sleeping, RPhase.pending, poolC10⟩ : WaitSys) :=
    WStep.timeoutFire _ rfl
  have h2 : WStep 0
      (⟨none, true, some AResult.timeout, WPhase.sleeping, RPhase.pending, poolC10⟩ : WaitSys)
      (⟨some Thr.R, true, some AResult.timeout, WPhase.sleeping, RPhase.running, poolC10⟩ : WaitSys) :=
    WStep.rLock _ rfl rfl
  have h3 : WStep 0
      (⟨some Thr.R, true, some AResult.timeout, WPhase.sleeping, RPhase.running, poolC10⟩ : WaitSys)
      (⟨none, true, some AResult.timeout, WPhase.sleeping, RPhase.rdone,
        ReturnClient poolC10 0⟩ : WaitSys) :=
    WStep.rRelease _ rfl
  have h4 : WStep 0
      (⟨none, true, some AResult.timeout, WPhase.sleeping, RPhase.rdone,
        ReturnClient poolC10 0⟩ : WaitSys)
      (⟨none, true, some AResult.timeout, WPhase.locking, RPhase.rdone,
        ReturnClient poolC10 0⟩ : WaitSys) :=
    WStep.wWake _ rfl
  have h5 : WStep 0
      (⟨none, true, some AResult.timeout, WPhase.locking, RPhase.rdone,
        ReturnClient poolC10 0⟩ : WaitSys)
      (⟨some Thr.W, true, some AResult.timeout, WPhase.scanning, RPhase.rdone,
        ReturnClient poolC10 0⟩ : WaitSys) :=
    WStep.wLock _ rfl rfl
  have h6 : WStep 0
      (⟨some Thr.W, true, some AResult.timeout, WPhase.scanning, RPhase.rdone,
        ReturnClient poolC10 0⟩ : WaitSys) leakedWaiterFinal :=
    WStep.wScanFound _ 0 rfl rfl (by decide)
  exact WReach.tail _ _ (WReach.tail _ _ (WReach.tail _ _ (WReach.tail _ _
    (WReach.tail _ _ (WReach.tail _ _ WReach.refl h1) h2) h3) h4) h5) h6

/-- C10 (amended): a failed (`PoolSaturated`) acquisition has no effect on
the pool up to the moment it returns — in every reachable waiting-phase
state before the return the pool equals its entry state — but the
acquisition leaves its polling goroutine behind: once that goroutine has
incremented a client and moved to its channel send after the return, no
step can ever advance it (the send blocks forever), so the slot it
consumed is never handed to anyone. -/
theorem saturatedReturnLeavesPoolThenLeaks (rc : Nat) (p0 : PoolState)
    (s s' s'' : WaitSys) (c : Nat)
    (hreach : WReach rc (waitInit p0) s) (hnotdone : s.aDone = false)
    (hdone : s'.aDone = true) (hsend : s'.w = WPhase.sending c)
    (hstep : WStep rc s' s'') :
    s.pool = p0 ∧ s''.w = WPhase.sending c := by
  constructor
  · exact ((waitInv_reach rc p0 s hreach).1 hnotdone).2.2.2.2
  · cases hstep with
    | timeoutFire hA =>
        rw [hdone] at hA
        exact Bool.noConfusion hA
    | recv c2 hA hw =>
        rw [hdone] at hA
        exact Bool.noConfusion hA
    | wWake hw =>
        rw [hsend] at hw
        exact WPhase.noConfusion hw
    | wLock hw ho =>
        rw [hsend] at hw
        exact WPhase.noConfusion hw
    | wScanFound c2 hw ho hf =>
        rw [hsend] at hw
        exact WPhase.noConfusion hw
    | wScanNone hw ho hf =>
        rw [hsend] at hw
        exact WPhase.noConfusion hw
    | rLock hr ho => exact hsend
    | rRelease hr => exact hsend

/-- C10 witness: `saturatedReturnLeavesPoolThenLeaks` at the initial
waiting state over `poolC10` and a post-return state whose leaked waiter
is at its send while the releaser locks the now-free mutex. -/
theorem saturatedReturnLeaksWitness :
    (waitInit poolC10).pool = poolC10 ∧
    (⟨some Thr.R, true, some AResult.timeout, WPhase.sending 0, RPhase.running,
      poolC10⟩ : WaitSys).w = WPhase.sending 0 :=
  saturatedReturnLeavesPoolThenLeaks 0 poolC10 (waitInit poolC10)
    ⟨none, true, some AResult.timeout, WPhase.sending 0, RPhase.pending, poolC10⟩
    ⟨some Thr.R, true, some AResult.timeout, WPhase.sending 0, RPhase.running, poolC10⟩
    0 WReach.refl rfl rfl rfl (WStep.rLock _ rfl rfl)

/-! ## Envelope serialization lemmas -/

/-- Serializing to the wire JSON document and deserializing is the identity
when the maps travel as native JSON objects (the form `ToJSON` produces). -/
theorem FromJSON_ToJSON (m : RPCMessage) : FromJSON (RPCMessage.ToJSON m) = .ok m := by
  obtain ⟨rpc, mid, tid, who, dl, args, response, stash, trace⟩ := m
  by_cases ht : tid = ""
  all_goals cases response <;> cases stash <;> cases trace
  all_goals first
    | (subst ht; rfl)
    | (simp only [RPCMessage.ToJSON, FromJSON, if_neg ht]; rfl)

/-- Converting to a broker map and back is the identity (all nine keys are
present with the types `FromMap` asserts). -/
theorem FromMap_ToMap (m : RPCMessage) : RPCMessage.FromMap (RPCMessage.ToMap m) = m := rfl

/-- C7: For every envelope, serializing it and then deserializing yields an
equal envelope, both when the args/response/stash/trace fields travel as
native maps and when they travel as JSON-encoded strings on the wire; both
wire forms deserialize to the same envelope.  EVALUATION AT THE FAILING
INPUT: the native-map wire forms round-trip (first two conjuncts), but the
same envelope whose `args` travels as the JSON-encoded STRING
`"\x7b\"x\":\"1\"\x7d"` makes `FromJSON` fail with an unmarshal type error
(the struct field is a typed map, so `parseNestedJSON`'s string branch is
unreachable) and makes `FromMap` silently drop the field, so the string
wire form does not deserialize to the same envelope. -/
theorem wireFormsDiverge :
    FromJSON (RPCMessage.ToJSON
        ⟨"login", "id7", "", "w1", 5, [("x", JVal.str "1")], [], [], []⟩)
      = .ok ⟨"login", "id7", "", "w1", 5, [("x", JVal.str "1")], [], [], []⟩ ∧
    MapToRPCMessage (RPCMessage.ToMap
        ⟨"login", "id7", "", "w1", 5, [("x", JVal.str "1")], [], [], []⟩)
      = ⟨"login", "id7", "", "w1", 5, [("x", JVal.str "1")], [], [], []⟩ ∧
    FromJSON (JVal.obj [("rpc", JVal.str "login"), ("message_id", JVal.str "id7"),
        ("who", JVal.str "w1"), ("deadline", JVal.num 5),
        ("args", JVal.str "\x7b\"x\":\"1\"\x7d")])
      = .error "cannot unmarshal field args" ∧
    (MapToRPCMessage [("rpc", JVal.str "login"), ("message_id", JVal.str "id7"),
        ("who", JVal.str "w1"), ("deadline", JVal.num 5),
        ("args", JVal.str "\x7b\"x\":\"1\"\x7d")]).args.length = 0 ∧
    (MapToRPCMessage (RPCMessage.ToMap
        ⟨"login", "id7", "", "w1", 5, [("x", JVal.str "1")], [], [], []⟩)).args.length = 1 :=
  ⟨rfl, rfl, rfl, rfl, rfl⟩

/-! ## Envelope invariants (claim C8) -/

/-- C8 counterexample: with the wall clock at 1.5 s past the epoch and a
positive 50 ms timeout, `NewRPCMessage` — whose deadline is
`time.Now().Add(timeout).Unix()`, truncated to whole seconds — produces
deadline 1 s, which is NOT strictly greater than the creation time. -/
theorem deadlineNotAfterCreation :
    0 < 50000000 ∧
    ¬ ((NewRPCMessage "login" "w1" [] 1500000000 50000000 "id7").deadline * 1000000000
        > (1500000000 : Int)) := by
  exact ⟨by norm_num, by decide⟩

/-- C8 (amended): every envelope produced by `call` has `who` equal to the
owning transport's `whoami`; its `message_id`, when fresh for the pending
map, occurs exactly once in the pending map after registration; and its
deadline is strictly after its creation time PROVIDED the timeout is at
least one second (the `Unix()` truncation loses sub-second precision, as
`deadlineNotAfterCreation` shows). -/
theorem callEnvelopeInvariants (rpc who0 method : String) (args : JMap)
    (nowNs timeoutNs : Nat) (freshId : String) (st : ClientState)
    (tArg : Option Nat)
    (hsec : 1000000000 ≤ timeoutNs) (hfresh : freshId ∉ st.pending) :
    (NewRPCMessage rpc who0 args nowNs timeoutNs freshId).deadline * 1000000000
        > (nowNs : Int) ∧
    (callRequest st method args nowNs tArg freshId).who = st.whoami ∧
    (registerSlot st freshId).pending.count freshId = 1 := by
  refine ⟨?_, rfl, ?_⟩
  · have hq := Nat.div_add_mod (nowNs + timeoutNs) 1000000000
    have hm : (nowNs + timeoutNs) % 1000000000 < 1000000000 :=
      Nat.mod_lt _ (by norm_num)
    have hnat : nowNs < ((nowNs + timeoutNs) / 1000000000) * 1000000000 := by omega
    simp only [NewRPCMessage, gt_iff_lt]
    exact_mod_cast hnat
  · simp only [registerSlot, List.count_append, List.count_eq_zero_of_not_mem hfresh]
    simp

/-- C8 witness: concrete instantiation of `callEnvelopeInvariants` with a
one-second timeout, a fresh id and an empty pending map. -/
theorem callEnvelopeInvariantsWitness :
    (NewRPCMessage "login" "w1" [] 500 1000000000 "id7").deadline * 1000000000
        > (500 : Int) ∧
    (callRequest ⟨"w1", true, []⟩ "login" [] 500 (some 1000000000) "id7").who = "w1" ∧
    (registerSlot ⟨"w1", true, []⟩ "id7").pending.count "id7" = 1 :=
  callEnvelopeInvariants "login" "w1" "login" [] 500 1000000000 "id7"
    ⟨"w1", true, []⟩ (some 1000000000) (by norm_num) (by simp)

/-! ## Pending-slot lifecycle (claim C4) -/

/-- C4 counterexample: a `CallRPC` whose broker append fails returns the
error while its rendezvous slot is still registered in the pending map —
refuting the claim that EVERY return path removes the slot. -/
theorem appendErrorLeavesSlot :
    (CallRPC ⟨"w1", true, []⟩ "login" [] 0 none "id1" (.appendFailed "broker down")).1
      = .error "broker down" ∧
    "id1" ∈ (CallRPC ⟨"w1", true, []⟩ "login" [] 0 none "id1"
        (.appendFailed "broker down")).2.pending :=
  ⟨rfl, by decide⟩

/-- C4 (amended): a `CallRPC` that returns with a delivered response or with
`CallTimeout` has removed its slot (the pending map returns to its prior
key set), and the timeout return carries the error `"rpc call timeout"`;
but a return caused by a broker append error leaves the slot registered. -/
theorem callRemovesSlotOnDeliveryAndTimeout (st : ClientState) (method : String)
    (args : JMap) (nowNs : Nat) (tArg : Option Nat) (freshId : String)
    (msg : RPCMessage) (err : String)
    (hsub : st.subscribed = true) (hfresh : freshId ∉ st.pending) :
    (CallRPC st method args nowNs tArg freshId (.delivered msg)).2.pending = st.pending ∧
    (CallRPC st method args nowNs tArg freshId .timeoutFired).1
      = .error "rpc call timeout" ∧
    (CallRPC st method args nowNs tArg freshId .timeoutFired).2.pending = st.pending ∧
    freshId ∉ (CallRPC st method args nowNs tArg freshId .timeoutFired).2.pending ∧
    (CallRPC st method args nowNs tArg freshId (.appendFailed err)).2.pending
      = st.pending ++ [freshId] := by
  have herase : (st.pending ++ [freshId]).erase freshId = st.pending := by
    rw [List.erase_append_right _ hfresh, List.erase_cons_head, List.append_nil]
  simp only [CallRPC, registerSlot, hsub]
  refine ⟨by simp [herase], rfl, by simp [herase], ?_, rfl⟩
  simp only [herase]
  simpa using hfresh

/-- C4 witness: concrete instantiation of `callRemovesSlotOnDeliveryAndTimeout`
on a subscribed client with one prior pending id. -/
theorem callRemovesSlotWitness :
    (CallRPC ⟨"w1", true, ["old"]⟩ "login" [] 0 none "id1"
        (.delivered ⟨"login", "id1", "", "w1", 9, [], [("ok", JVal.str "1")], [], []⟩)).2.pending
      = ["old"] ∧
    (CallRPC ⟨"w1", true, ["old"]⟩ "login" [] 0 none "id1" .timeoutFired).1
      = .error "rpc call timeout" ∧
    (CallRPC ⟨"w1", true, ["old"]⟩ "login" [] 0 none "id1" .timeoutFired).2.pending = ["old"] ∧
    "id1" ∉ (CallRPC ⟨"w1", true, ["old"]⟩ "login" [] 0 none "id1" .timeoutFired).2.pending ∧
    (CallRPC ⟨"w1", true, ["old"]⟩ "login" [] 0 none "id1" (.appendFailed "EOF")).2.pending
      = ["old", "id1"] :=
  callRemovesSlotOnDeliveryAndTimeout ⟨"w1", true, ["old"]⟩ "login" [] 0 none "id1"
    ⟨"login", "id1", "", "w1", 9, [], [("ok", JVal.str "1")], [], []⟩ "EOF"
    rfl (by decide)

/-! ## Handler response shape (claim C1) -/

/-- C1 counterexample: an RPC call that succeeds with the envelope response
map `\x7b"ok": "1"\x7d` — exactly the spec's happy-path payload — makes the
handler reply 500 `"unexpected response structure"`, not 200 with that map:
the handler looks up a `"response"` key INSIDE the map `CallRPC` already
unwrapped. -/
theorem successBodyNotResponseMap :
    handleRPCResult (.ok [("ok", JVal.str "1")])
      = (500, errBody "unexpected response structure") ∧
    (handleRPCResult (.ok [("ok", JVal.str "1")])).1 ≠ 200 :=
  ⟨rfl, by decide⟩

/-- C1 (amended): when the RPC call succeeds, the handler replies 200 with
the map stored under the `"response"` key OF the envelope's response map,
and replies 500 `"unexpected response structure"` whenever the envelope's
response map has no such key of map shape; an RPC error is a 500 with the
error text. -/
theorem handlerUnwrapsInnerResponse (e : String) (r r2 inner : JMap)
    (hin : List.lookup "response" r = some (JVal.obj inner))
    (hnone : ∀ i2 : JMap, List.lookup "response" r2 ≠ some (JVal.obj i2)) :
    handleRPCResult (.error e) = (500, errBody e) ∧
    handleRPCResult (.ok r) = (200, JVal.obj inner) ∧
    handleRPCResult (.ok r2) = (500, errBody "unexpected response structure") := by
  refine ⟨rfl, by simp [handleRPCResult, hin], ?_⟩
  cases hl : List.lookup "response" r2 with
  | none => simp [handleRPCResult, hl]
  | some v =>
      cases v with
      | obj i2 => exact absurd hl (hnone i2)
      | str s => simp [handleRPCResult, hl]
      | num n => simp [handleRPCResult, hl]
      | boolean b => simp [handleRPCResult, hl]
      | jnull => simp [handleRPCResult, hl]

/-- C1 witness: concrete instantiation of `handlerUnwrapsInnerResponse`
with a backend payload that nests its body under `"response"` and one that
does not. -/
theorem handlerUnwrapsWitness :
    handleRPCResult (.error "boom") = (500, errBody "boom") ∧
    handleRPCResult (.ok [("response", JVal.obj [("ok", JVal.str "1")])])
      = (200, JVal.obj [("ok", JVal.str "1")]) ∧
    handleRPCResult (.ok [("ok", JVal.str "1")])
      = (500, errBody "unexpected response structure") :=
  handlerUnwrapsInnerResponse "boom" [("response", JVal.obj [("ok", JVal.str "1")])]
    [("ok", JVal.str "1")] [("ok", JVal.str "1")] rfl
    (fun i2 h => by simp [List.lookup] at h)

end Gateway
